import Mathlib

/-!
Verification of the Actus student-data migration toolkit.

Shallow embedding of the Python modules `src/modules/attendance.py`,
`src/modules/grades.py`, `src/modules/enrollment.py`,
`src/modules/identity.py` and `src/reconciliation/engine.py`.

Modelling conventions:
* calendar dates are day numbers (`Nat`); an absent Python `None` date is
  `Option.none`;
* Python `float` arithmetic on small decimal constants is modelled with `ℚ`;
  `round(x, n)` is modelled by `roundHalfEven` (Python's banker rounding on
  exact values);
* Python dicts used as association containers (insertion ordered) are
  association lists;
* stateful methods become pure functions threading an explicit state value.
-/

/-- Python `round` ties-to-even on an exact rational value: nearest integer,
half-way cases to the even integer. -/
def roundHalfEven (x : ℚ) : ℤ :=
  if x - ⌊x⌋ < 1/2 then ⌊x⌋
  else if (1:ℚ)/2 < x - ⌊x⌋ then ⌊x⌋ + 1
  else if ⌊x⌋ % 2 = 0 then ⌊x⌋ else ⌊x⌋ + 1

/-- Python `round(x, 2)`. -/
def round2 (x : ℚ) : ℚ := (roundHalfEven (x * 100) : ℚ) / 100

/-- Python `round(x, 3)`. -/
def round3 (x : ℚ) : ℚ := (roundHalfEven (x * 1000) : ℚ) / 1000

theorem roundHalfEven_le_ceil (x : ℚ) : roundHalfEven x ≤ ⌈x⌉ := by
  have hceil : ∀ h : (⌊x⌋ : ℚ) < x, ⌊x⌋ + 1 ≤ ⌈x⌉ := by
    intro h
    have h2 : (⌊x⌋ : ℚ) < (⌈x⌉ : ℚ) := lt_of_lt_of_le h (Int.le_ceil x)
    have h3 : ⌊x⌋ < ⌈x⌉ := by exact_mod_cast h2
    omega
  unfold roundHalfEven
  split
  · exact Int.floor_le_ceil x
  · rename_i h1
    split
    · exact hceil (by linarith)
    · rename_i h2
      have hx : (⌊x⌋ : ℚ) < x := by
        have : x - ⌊x⌋ = 1/2 := le_antisymm (not_lt.mp h2) (not_lt.mp h1)
        linarith
      split
      · exact Int.floor_le_ceil x
      · exact hceil hx

theorem floor_le_roundHalfEven (x : ℚ) : ⌊x⌋ ≤ roundHalfEven x := by
  unfold roundHalfEven
  split
  · exact le_refl _
  · split
    · omega
    · split <;> omega

theorem roundHalfEven_intCast (n : ℤ) : roundHalfEven (n : ℚ) = n := by
  unfold roundHalfEven
  simp

/-- Bounds transfer through banker rounding. -/
theorem roundHalfEven_bounds {x : ℚ} {a b : ℤ} (ha : (a : ℚ) ≤ x) (hb : x ≤ (b : ℚ)) :
    a ≤ roundHalfEven x ∧ roundHalfEven x ≤ b := by
  constructor
  · exact le_trans (Int.le_floor.mpr ha) (floor_le_roundHalfEven x)
  · exact le_trans (roundHalfEven_le_ceil x) (Int.ceil_le.mpr hb)

/-- Python `str.lower()` (ASCII model). -/
def pyLower (s : String) : String := String.mk (s.data.map Char.toLower)

/-- Python `str.strip()`: remove leading and trailing whitespace. -/
def pyStrip (s : String) : String :=
  String.mk (((s.data.dropWhile Char.isWhitespace).reverse.dropWhile
    Char.isWhitespace).reverse)

namespace Attendance

/-- Canonical attendance status codes (`AttendanceStatus` enum). -/
inductive AttendanceStatus where
  | present
  | absent
  | tardy
  | excused
  | unexcused
  | remote
  | earlyDeparture
  | halfDay
deriving DecidableEq, Repr

/-- Type of attendance record (`AttendanceType` enum). -/
inductive AttendanceType where
  | daily
  | period
  | course
deriving DecidableEq, Repr

/-- A single attendance record (`AttendanceRecord` dataclass); only the fields
the embedded methods read are kept.  Dates are day numbers. -/
structure AttendanceRecord where
  id : String
  student_id : String
  date : Nat
  status : AttendanceStatus
  attendance_type : AttendanceType := .daily
  period : Option Int := none
  source_code : Option String := none
  source_system : Option String := none
deriving DecidableEq, Repr

/-- `AttendanceRecord.is_present`. -/
def AttendanceRecord.is_present (r : AttendanceRecord) : Bool :=
  r.status = .present ∨ r.status = .tardy ∨ r.status = .remote ∨ r.status = .halfDay

/-- `AttendanceRecord.is_absent`. -/
def AttendanceRecord.is_absent (r : AttendanceRecord) : Bool :=
  r.status = .absent ∨ r.status = .excused ∨ r.status = .unexcused

/-- `DailyAttendanceSummary.calculate_daily_status`, as a function of the
summary's current `daily_status` field (returned when there are no period
records) and its `period_records` list.  Python's `periods_absent >
total_periods / 2` is float division of small naturals, equivalent to
`2 * periods_absent > total_periods`. -/
def calculate_daily_status (daily_status : AttendanceStatus)
    (period_records : List AttendanceRecord) : AttendanceStatus :=
  if period_records = [] then daily_status
  else
    let total_periods := period_records.length
    let periods_absent := (period_records.filter (fun r => r.is_absent)).length
    let periods_tardy := (period_records.filter (fun r => r.status = .tardy)).length
    if periods_absent = total_periods then .absent
    else if 2 * periods_absent > total_periods then .halfDay
    else if periods_tardy > 0 ∧ periods_absent = 0 then .tardy
    else .present

/-- Aggregate attendance statistics (`AttendanceAggregate` dataclass). -/
structure AttendanceAggregate where
  student_id : String
  start_date : Nat
  end_date : Nat
  days_present : Nat := 0
  days_absent : Nat := 0
  days_tardy : Nat := 0
  days_excused : Nat := 0
  days_unexcused : Nat := 0
  total_days : Nat := 0
  attendance_rate : ℚ := 0
deriving DecidableEq, Repr

/-- `AttendanceAggregate.calculate_rate`: the rate the method stores and
returns (`(days_present + days_tardy) / total_days * 100` rounded to two
decimals when `total_days > 0`, else the current `attendance_rate` field). -/
def AttendanceAggregate.calculate_rate (a : AttendanceAggregate) : ℚ :=
  if a.total_days > 0 then
    round2 (((a.days_present : ℚ) + (a.days_tardy : ℚ)) / (a.total_days : ℚ) * 100)
  else a.attendance_rate

/-- Standard attendance code lookup table (`AttendanceCodeMapper.CODE_MAPPINGS`). -/
def CODE_MAPPINGS : List (String × AttendanceStatus) :=
  [("p", .present), ("present", .present), ("pres", .present), ("pr", .present),
   ("1", .present), ("y", .present), ("yes", .present), ("in", .present),
   ("a", .absent), ("absent", .absent), ("abs", .absent), ("ab", .absent),
   ("0", .absent), ("n", .absent), ("no", .absent), ("out", .absent),
   ("t", .tardy), ("tardy", .tardy), ("late", .tardy), ("l", .tardy), ("lt", .tardy),
   ("e", .excused), ("excused", .excused), ("exc", .excused), ("ex", .excused),
   ("ea", .excused), ("excused absence", .excused),
   ("u", .unexcused), ("unexcused", .unexcused), ("unex", .unexcused),
   ("ua", .unexcused), ("unexcused absence", .unexcused),
   ("r", .remote), ("remote", .remote), ("virtual", .remote), ("v", .remote),
   ("online", .remote),
   ("ed", .earlyDeparture), ("early", .earlyDeparture),
   ("early departure", .earlyDeparture), ("left early", .earlyDeparture)]

/-- Mutable state of an `AttendanceCodeMapper`: the custom mappings and the
set of codes that could not be mapped (modelled as a duplicate-free list). -/
structure CodeMapper where
  unmapped_codes : List String := []
  custom_mappings : List (String × AttendanceStatus) := []
deriving DecidableEq, Repr

/-- Insertion into the `unmapped_codes` set. -/
def CodeMapper.addUnmapped (m : CodeMapper) (code : String) : CodeMapper :=
  if code ∈ m.unmapped_codes then m
  else { m with unmapped_codes := m.unmapped_codes ++ [code] }

/-- `AttendanceCodeMapper.map_code`: returns `(status, was_mapped)` together
with the updated mapper state.  Empty codes default to `Absent` unmapped;
custom mappings are consulted before the standard table; an unrecognized code
is added to `unmapped_codes` and defaults to `Absent`. -/
def CodeMapper.map_code (m : CodeMapper) (code : String) :
    AttendanceStatus × Bool × CodeMapper :=
  if code = "" then (.absent, false, m)
  else
    let normalized := pyStrip (pyLower code)
    match m.custom_mappings.lookup normalized with
    | some status => (status, true, m)
    | none =>
      match CODE_MAPPINGS.lookup normalized with
      | some status => (status, true, m)
      | none => (.absent, false, m.addUnmapped code)

/-- An entry of `AttendanceProcessor.issues`. -/
structure Issue where
  itype : String
  student_id : String
  date : Option Nat
  code : String
deriving DecidableEq, Repr

/-- Mutable state of an `AttendanceProcessor` (records per student are kept
in one list tagged by `student_id`). -/
structure ProcessorState where
  records : List AttendanceRecord := []
  issues : List Issue := []
  code_mapper : CodeMapper := {}
deriving DecidableEq, Repr

/-- Raw source row handed to `AttendanceProcessor.process_record`.  The
`date` field carries the result of `parse_date` on the raw date string (the
`strptime` format-list parsing itself is not modelled: no claim depends on
it); `today` stands for `date.today()` used when the date is missing. -/
structure RawRecord where
  studentId : String
  date : Option Nat
  status : String
  period : Option Int := none
deriving DecidableEq, Repr

/-- `AttendanceProcessor.process_record`, restricted to the fields the claims
touch: maps the (stripped) attendance code, records an `unmapped_code` issue
when the code was not recognized and non-empty, determines the attendance
type from the period, stores and returns the new record. -/
def process_record (st : ProcessorState) (record : RawRecord) (source : String)
    (today : Nat) : ProcessorState × AttendanceRecord :=
  let student_id := record.studentId
  let date_value := record.date
  let raw_code := pyStrip record.status
  let mapped := st.code_mapper.map_code raw_code
  let status := mapped.1
  let was_mapped := mapped.2.1
  let mapper := mapped.2.2
  let issues :=
    if was_mapped = false ∧ raw_code ≠ "" then
      st.issues ++ [{ itype := "unmapped_code", student_id := student_id,
                      date := date_value, code := raw_code }]
    else st.issues
  let attendance_type : AttendanceType :=
    match record.period with
    | some _ => .period
    | none => .daily
  let attendance_record : AttendanceRecord :=
    { id := s!"{student_id}-{date_value.getD today}-{record.period.getD 0}",
      student_id := student_id,
      date := date_value.getD today,
      status := status,
      attendance_type := attendance_type,
      period := record.period,
      source_code := some raw_code,
      source_system := some source }
  ({ records := st.records ++ [attendance_record], issues := issues,
     code_mapper := mapper }, attendance_record)

/-- `AttendanceProcessor.build_daily_summary`, reduced to the daily status it
computes: filter the student's records to the target date and run
`calculate_daily_status` (a fresh summary starts with `daily_status =
Present`). -/
def daily_status_on (records : List AttendanceRecord) (student_id : String)
    (target_date : Nat) : AttendanceStatus :=
  calculate_daily_status .present
    (records.filter (fun r => r.student_id = student_id ∧ r.date = target_date))

/-- One iteration of the tally loop in
`AttendanceProcessor.calculate_aggregate`. -/
def tallyDay (a : AttendanceAggregate) (status : AttendanceStatus) :
    AttendanceAggregate :=
  if status = .present then { a with days_present := a.days_present + 1 }
  else if status = .tardy then { a with days_tardy := a.days_tardy + 1 }
  else if status = .excused then { a with days_excused := a.days_excused + 1 }
  else if status = .unexcused then { a with days_unexcused := a.days_unexcused + 1 }
  else if status = .absent ∨ status = .halfDay then
    { a with days_absent := a.days_absent + 1 }
  else a

/-- Distinct dates of the records relevant to the range, in first-occurrence
order (the keys of the `by_date` dict). -/
def aggregateDates (records : List AttendanceRecord) (student_id : String)
    (start d_end : Nat) : List Nat :=
  (((records.filter (fun r => r.student_id = student_id)).filter
      (fun r => start ≤ r.date ∧ r.date ≤ d_end)).map (fun r => r.date)).eraseDups

/-- `AttendanceProcessor.calculate_aggregate`: group the student's records in
range by date, tally each date's daily status, then store the rate computed
by `calculate_rate`. -/
def calculate_aggregate (records : List AttendanceRecord) (student_id : String)
    (start d_end : Nat) : AttendanceAggregate :=
  let dates := aggregateDates records student_id start d_end
  let base : AttendanceAggregate :=
    { student_id := student_id, start_date := start, end_date := d_end,
      total_days := dates.length }
  let tallied := dates.foldl
    (fun a d => tallyDay a (daily_status_on records student_id d)) base
  { tallied with attendance_rate := tallied.calculate_rate }

/-- Concrete record builder for sample scenarios. -/
def sampleRec (i : Nat) (s : AttendanceStatus) : AttendanceRecord :=
  { id := toString i, student_id := "s", date := 0, status := s }

theorem foldl_tallyDay (f : Nat → AttendanceStatus) (dates : List Nat)
    (a : AttendanceAggregate) :
    let res := dates.foldl (fun acc d => tallyDay acc (f d)) a
    res.days_present = a.days_present + (dates.filter (fun d => f d = .present)).length ∧
    res.days_tardy = a.days_tardy + (dates.filter (fun d => f d = .tardy)).length ∧
    res.days_absent = a.days_absent +
      (dates.filter (fun d => f d = .absent ∨ f d = .halfDay)).length ∧
    res.total_days = a.total_days ∧
    res.attendance_rate = a.attendance_rate := by
  induction dates generalizing a with
  | nil => simp
  | cons d ds ih =>
    obtain ⟨h1, h2, h3, h4, h5⟩ := ih (tallyDay a (f d))
    simp only [List.foldl_cons]
    refine ⟨?_, ?_, ?_, ?_, ?_⟩
    · rw [h1, List.filter_cons]
      cases hfd : f d <;> simp [tallyDay, hfd] <;> omega
    · rw [h2, List.filter_cons]
      cases hfd : f d <;> simp [tallyDay, hfd] <;> omega
    · rw [h3, List.filter_cons]
      cases hfd : f d <;> simp [tallyDay, hfd] <;> omega
    · rw [h4]
      cases hfd : f d <;> simp [tallyDay, hfd]
    · rw [h5]
      cases hfd : f d <;> simp [tallyDay, hfd]

theorem daily_status_on_cases (records : List AttendanceRecord) (sid : String)
    (d : Nat) :
    daily_status_on records sid d = .present ∨ daily_status_on records sid d = .absent ∨
    daily_status_on records sid d = .halfDay ∨ daily_status_on records sid d = .tardy := by
  unfold daily_status_on calculate_daily_status
  split
  · left; rfl
  · dsimp only
    split_ifs <;> tauto

theorem three_filter_length {α : Type} (p q r : α → Bool) (l : List α)
    (h : ∀ x ∈ l, (p x = true ∧ q x = false ∧ r x = false) ∨
      (p x = false ∧ q x = true ∧ r x = false) ∨
      (p x = false ∧ q x = false ∧ r x = true)) :
    (l.filter p).length + (l.filter q).length + (l.filter r).length = l.length := by
  induction l with
  | nil => simp
  | cons x xs ih =>
    have hx := h x (List.mem_cons_self x xs)
    have hxs := ih (fun y hy => h y (List.mem_cons_of_mem x hy))
    rcases hx with ⟨h1, h2, h3⟩ | ⟨h1, h2, h3⟩ | ⟨h1, h2, h3⟩ <;>
      simp [List.filter_cons, h1, h2, h3] <;>
      omega

theorem round2_bounds {x : ℚ} (h0 : 0 ≤ x) (h1 : x ≤ 100) :
    0 ≤ round2 x ∧ round2 x ≤ 100 := by
  obtain ⟨hl, hr⟩ := roundHalfEven_bounds (x := x * 100) (a := 0) (b := 10000)
    (by push_cast; nlinarith) (by push_cast; nlinarith)
  have hl2 : (0 : ℚ) ≤ (roundHalfEven (x * 100) : ℚ) := by exact_mod_cast hl
  have hr2 : ((roundHalfEven (x * 100) : ℚ)) ≤ 10000 := by exact_mod_cast hr
  unfold round2
  constructor
  · exact div_nonneg hl2 (by norm_num)
  · rw [div_le_iff₀ (by norm_num : (0:ℚ) < 100)]
    linarith

theorem calculate_aggregate_fields (records : List AttendanceRecord)
    (sid : String) (start d_end : Nat) :
    (calculate_aggregate records sid start d_end).days_present =
      ((aggregateDates records sid start d_end).filter
        (fun d => daily_status_on records sid d = .present)).length ∧
    (calculate_aggregate records sid start d_end).days_tardy =
      ((aggregateDates records sid start d_end).filter
        (fun d => daily_status_on records sid d = .tardy)).length ∧
    (calculate_aggregate records sid start d_end).days_absent =
      ((aggregateDates records sid start d_end).filter
        (fun d => daily_status_on records sid d = .absent ∨
          daily_status_on records sid d = .halfDay)).length ∧
    (calculate_aggregate records sid start d_end).total_days =
      (aggregateDates records sid start d_end).length ∧
    (calculate_aggregate records sid start d_end).attendance_rate =
      (if 0 < (aggregateDates records sid start d_end).length then
        round2 (((((aggregateDates records sid start d_end).filter
            (fun d => daily_status_on records sid d = .present)).length : ℚ) +
          (((aggregateDates records sid start d_end).filter
            (fun d => daily_status_on records sid d = .tardy)).length : ℚ)) /
          ((aggregateDates records sid start d_end).length : ℚ) * 100)
      else 0) := by
  obtain ⟨h1, h2, h3, h4, h5⟩ :=
    foldl_tallyDay (fun d => daily_status_on records sid d)
      (aggregateDates records sid start d_end)
      { student_id := sid, start_date := start, end_date := d_end,
        total_days := (aggregateDates records sid start d_end).length }
  unfold calculate_aggregate
  simp only [Nat.zero_add] at h1 h2 h3
  dsimp only at h1 h2 h3 h4 h5 ⊢
  refine ⟨h1, h2, h3, h4, ?_⟩
  unfold AttendanceAggregate.calculate_rate
  rw [h4, h5, h1, h2]

theorem aggregate_status_partition (records : List AttendanceRecord)
    (sid : String) (start d_end : Nat) :
    ((aggregateDates records sid start d_end).filter
      (fun d => daily_status_on records sid d = .present)).length +
    ((aggregateDates records sid start d_end).filter
      (fun d => daily_status_on records sid d = .tardy)).length +
    ((aggregateDates records sid start d_end).filter
      (fun d => daily_status_on records sid d = .absent ∨
        daily_status_on records sid d = .halfDay)).length =
    (aggregateDates records sid start d_end).length := by
  apply three_filter_length
  intro x _
  rcases daily_status_on_cases records sid x with h | h | h | h <;> simp [h]

theorem round2_hundred : round2 100 = 100 := by
  have h : ((100 : ℚ) * 100) = ((10000 : ℤ) : ℚ) := by norm_num
  unfold round2
  rw [h, roundHalfEven_intCast]
  norm_num

/-- C7: every aggregate produced by `calculate_aggregate` carries an
attendance rate in [0, 100]; when the range has at least one attendance day
the rate equals `(days_present + days_tardy) / total_days * 100` rounded to
two decimals, and it equals exactly 100 when every day in the range has
daily status Present. -/
theorem C7_attendance_rate (records : List AttendanceRecord) (sid : String)
    (start d_end : Nat) :
    (0 ≤ (calculate_aggregate records sid start d_end).attendance_rate ∧
      (calculate_aggregate records sid start d_end).attendance_rate ≤ 100) ∧
    (0 < (calculate_aggregate records sid start d_end).total_days →
      (calculate_aggregate records sid start d_end).attendance_rate =
        round2 ((((calculate_aggregate records sid start d_end).days_present : ℚ) +
            ((calculate_aggregate records sid start d_end).days_tardy : ℚ)) /
          ((calculate_aggregate records sid start d_end).total_days : ℚ) * 100)) ∧
    (aggregateDates records sid start d_end ≠ [] →
      (∀ d ∈ aggregateDates records sid start d_end,
        daily_status_on records sid d = .present) →
      (calculate_aggregate records sid start d_end).attendance_rate = 100) := by
  obtain ⟨hp, ht, ha, htot, hrate⟩ := calculate_aggregate_fields records sid start d_end
  have hsum := aggregate_status_partition records sid start d_end
  refine ⟨?_, ?_, ?_⟩
  · rw [hrate]
    split_ifs with hlen
    · have hle : ((aggregateDates records sid start d_end).filter
          (fun d => daily_status_on records sid d = .present)).length +
          ((aggregateDates records sid start d_end).filter
            (fun d => daily_status_on records sid d = .tardy)).length ≤
          (aggregateDates records sid start d_end).length := by omega
      have hlenQ : (0:ℚ) < ((aggregateDates records sid start d_end).length : ℚ) := by
        exact_mod_cast hlen
      apply round2_bounds
      · positivity
      · have hleQ : (((aggregateDates records sid start d_end).filter
            (fun d => daily_status_on records sid d = .present)).length : ℚ) +
            (((aggregateDates records sid start d_end).filter
              (fun d => daily_status_on records sid d = .tardy)).length : ℚ) ≤
            ((aggregateDates records sid start d_end).length : ℚ) := by
          exact_mod_cast hle
        rw [div_mul_eq_mul_div, div_le_iff₀ hlenQ]
        linarith
    · norm_num
  · intro hpos
    rw [htot] at hpos
    rw [hrate, if_pos hpos, hp, ht, htot]
  · intro hne hall
    have hcp : (aggregateDates records sid start d_end).filter
        (fun d => daily_status_on records sid d = .present) =
        aggregateDates records sid start d_end :=
      List.filter_eq_self.mpr (by intro a hamem; simpa using hall a hamem)
    have hct : (aggregateDates records sid start d_end).filter
        (fun d => daily_status_on records sid d = .tardy) = [] := by
      rw [List.filter_eq_nil_iff]
      intro a hamem
      simp [hall a hamem]
    have hlen : 0 < (aggregateDates records sid start d_end).length :=
      List.length_pos.mpr hne
    have hlenQ : ((aggregateDates records sid start d_end).length : ℚ) ≠ 0 := by
      exact_mod_cast Nat.pos_iff_ne_zero.mp hlen
    rw [hrate, if_pos hlen, hcp, hct]
    have hv : (((aggregateDates records sid start d_end).length : ℚ) +
        (([] : List Nat).length : ℚ)) /
        ((aggregateDates records sid start d_end).length : ℚ) * 100 = 100 := by
      simp only [List.length_nil, Nat.cast_zero, add_zero]
      field_simp
    rw [hv]
    exact round2_hundred

/-- Witness for C7 at a concrete single-day input. -/
theorem C7_attendance_rate_witness :
    aggregateDates [sampleRec 0 .present] "s" 0 10 ≠ [] ∧
    (calculate_aggregate [sampleRec 0 .present] "s" 0 10).attendance_rate = 100 ∧
    0 ≤ (calculate_aggregate [sampleRec 0 .present] "s" 0 10).attendance_rate :=
  ⟨by decide,
   (C7_attendance_rate [sampleRec 0 .present] "s" 0 10).2.2 (by decide)
     (by decide),
   (C7_attendance_rate [sampleRec 0 .present] "s" 0 10).1.1⟩

/-- C6: for every non-empty list of period records, `calculate_daily_status`
follows the strict priority order Absent (all periods absent), HalfDay
(absent count exceeds half the total), Tardy (some tardy, none absent),
else Present; in particular 2 absences out of 3 periods give HalfDay and 3
out of 3 give Absent. -/
theorem C6_daily_status_priority (d0 : AttendanceStatus)
    (rs : List AttendanceRecord) (hne : rs ≠ []) :
    (calculate_daily_status d0 rs =
      if (rs.filter (fun r => r.is_absent)).length = rs.length then .absent
      else if 2 * (rs.filter (fun r => r.is_absent)).length > rs.length then .halfDay
      else if (rs.filter (fun r => r.status = .tardy)).length > 0 ∧
          (rs.filter (fun r => r.is_absent)).length = 0 then .tardy
      else .present) ∧
    calculate_daily_status .present
      [sampleRec 0 .absent, sampleRec 1 .absent, sampleRec 2 .present] = .halfDay ∧
    calculate_daily_status .present
      [sampleRec 0 .absent, sampleRec 1 .absent, sampleRec 2 .absent] = .absent := by
  refine ⟨?_, by decide, by decide⟩
  unfold calculate_daily_status
  rw [if_neg hne]

/-- C8: an attendance code found neither in the custom mappings (checked
first) nor in the standard case-insensitive table maps to canonical status
Absent with `was_mapped = false`, and `process_record` logs the unrecognized
code as an `unmapped_code` issue (and stores the record) instead of
raising. -/
theorem C8_unmapped_code_defaults (m : CodeMapper) (code : String)
    (hcode : code ≠ "")
    (hcustom : m.custom_mappings.lookup (pyStrip (pyLower code)) = none)
    (hstd : CODE_MAPPINGS.lookup (pyStrip (pyLower code)) = none) :
    (m.map_code code).1 = .absent ∧ (m.map_code code).2.1 = false ∧
    ∀ (st : ProcessorState) (rec : RawRecord) (src : String) (today : Nat),
      st.code_mapper = m → pyStrip rec.status = code →
        (process_record st rec src today).1.issues =
          st.issues ++ [{ itype := "unmapped_code", student_id := rec.studentId,
                          date := rec.date, code := code }] ∧
        (process_record st rec src today).2.status = .absent := by
  have hmc : m.map_code code = (.absent, false, m.addUnmapped code) := by
    unfold CodeMapper.map_code
    rw [if_neg hcode]
    simp only [hcustom, hstd]
  refine ⟨by rw [hmc], by rw [hmc], ?_⟩
  intro st rec src today hst hraw
  constructor <;> simp [process_record, hraw, hst, hmc, hcode]

/-- Concrete raw row used by the C8 witness. -/
def xyzRaw : RawRecord := { studentId := "s1", date := some 5, status := "XYZ" }

/-- Concrete issue entry used by the C8 witness. -/
def xyzIssue : Issue :=
  { itype := "unmapped_code", student_id := "s1", date := some 5, code := "XYZ" }

/-- Witness for C8 with the unrecognized code "XYZ". -/
theorem C8_unmapped_code_defaults_witness :
    ("XYZ" : String) ≠ "" ∧
    (({} : CodeMapper).custom_mappings.lookup (pyStrip (pyLower "XYZ")) = none) ∧
    (CODE_MAPPINGS.lookup (pyStrip (pyLower "XYZ")) = none) ∧
    (({} : CodeMapper).map_code "XYZ").1 = .absent ∧
    (process_record {} xyzRaw "sis" 0).1.issues = ([] : List Issue) ++ [xyzIssue] := by
  refine ⟨by decide, by decide, by decide, ?_, ?_⟩
  · exact (C8_unmapped_code_defaults {} "XYZ" (by decide) (by decide) (by decide)).1
  · exact ((C8_unmapped_code_defaults {} "XYZ" (by decide) (by decide)
      (by decide)).2.2 {} xyzRaw "sis" 0 rfl (by decide)).1

/-- Witness for C6 at concrete inputs. -/
theorem C6_daily_status_priority_witness :
    [sampleRec 0 AttendanceStatus.present] ≠ [] ∧
    calculate_daily_status .present
      [sampleRec 0 .absent, sampleRec 1 .absent, sampleRec 2 .present] = .halfDay :=
  ⟨by decide,
   (C6_daily_status_priority .present [sampleRec 0 .present] (by decide)).2.1⟩

end Attendance

namespace Grades

/-- A transcript entry (`TranscriptEntry` dataclass). -/
structure TranscriptEntry where
  course_code : String
  course_name : String
  term : String
  school_year : String
  letter_grade : String
  credits_attempted : ℚ
  credits_earned : ℚ
  grade_points : ℚ
  is_weighted : Bool := false
deriving DecidableEq, Repr

/-- `TranscriptEntry.quality_points`. -/
def TranscriptEntry.quality_points (e : TranscriptEntry) : ℚ :=
  e.grade_points * e.credits_attempted

/-- A student's transcript (`StudentTranscript` dataclass). -/
structure StudentTranscript where
  student_id : String
  entries : List TranscriptEntry := []
  cumulative_gpa : ℚ := 0
  weighted_gpa : ℚ := 0
  total_credits_attempted : ℚ := 0
  total_credits_earned : ℚ := 0
deriving DecidableEq, Repr

/-- The accumulation loop of `StudentTranscript.calculate_gpa`: returns
`(total_quality_points, weighted_quality_points, total_credits)`; entries
with `credits_attempted ≤ 0` are skipped, and the flat `0.5` weight bonus is
added only into the weighted quality points. -/
def gpaSums (entries : List TranscriptEntry) : ℚ × ℚ × ℚ :=
  entries.foldl
    (fun acc e =>
      if e.credits_attempted > 0 then
        (acc.1 + e.grade_points * e.credits_attempted,
         acc.2.1 + (e.grade_points + (if e.is_weighted then 1/2 else 0)) *
           e.credits_attempted,
         acc.2.2 + e.credits_attempted)
      else acc)
    (0, 0, 0)

/-- Return value of `StudentTranscript.calculate_gpa`:
`(cumulative_gpa, weighted_gpa)`, each rounded to three decimals. -/
def calculate_gpa (entries : List TranscriptEntry) : ℚ × ℚ :=
  if entries = [] then (0, 0)
  else
    let s := gpaSums entries
    (if s.2.2 > 0 then round3 (s.1 / s.2.2) else 0,
     if s.2.2 > 0 then round3 (s.2.1 / s.2.2) else 0)

/-- The state mutation performed by `StudentTranscript.calculate_gpa`: the
early return on an empty entry list leaves the transcript untouched;
otherwise `total_credits_attempted`, `cumulative_gpa` and `weighted_gpa` are
stored.  The `entries` themselves (and their `grade_points`) are never
written. -/
def StudentTranscript.calculate_gpa_state (t : StudentTranscript) :
    StudentTranscript :=
  if t.entries = [] then t
  else
    let s := gpaSums t.entries
    { t with total_credits_attempted := s.2.2,
             cumulative_gpa := if s.2.2 > 0 then round3 (s.1 / s.2.2) else 0,
             weighted_gpa := if s.2.2 > 0 then round3 (s.2.1 / s.2.2) else 0 }

theorem gpaSums_foldl (entries : List TranscriptEntry) (acc : ℚ × ℚ × ℚ) :
    entries.foldl
      (fun acc e =>
        if e.credits_attempted > 0 then
          (acc.1 + e.grade_points * e.credits_attempted,
           acc.2.1 + (e.grade_points + (if e.is_weighted then 1/2 else 0)) *
             e.credits_attempted,
           acc.2.2 + e.credits_attempted)
        else acc)
      acc =
    (acc.1 + ((entries.filter (fun e => e.credits_attempted > 0)).map
        (fun e => e.grade_points * e.credits_attempted)).sum,
     acc.2.1 + ((entries.filter (fun e => e.credits_attempted > 0)).map
        (fun e => (e.grade_points + (if e.is_weighted then 1/2 else 0)) *
          e.credits_attempted)).sum,
     acc.2.2 + ((entries.filter (fun e => e.credits_attempted > 0)).map
        (fun e => e.credits_attempted)).sum) := by
  induction entries generalizing acc with
  | nil => simp
  | cons e es ih =>
    by_cases hc : e.credits_attempted > 0
    · simp only [List.foldl_cons, if_pos hc, ih, List.filter_cons,
        decide_eq_true_eq, hc, if_true, List.map_cons, List.sum_cons]
      refine Prod.ext ?_ (Prod.ext ?_ ?_) <;> dsimp <;> ring
    · simp only [List.foldl_cons, if_neg hc, ih, List.filter_cons]
      simp [hc]

theorem gpaSums_eq_sums (entries : List TranscriptEntry) :
    gpaSums entries =
    (((entries.filter (fun e => e.credits_attempted > 0)).map
        (fun e => e.grade_points * e.credits_attempted)).sum,
     ((entries.filter (fun e => e.credits_attempted > 0)).map
        (fun e => (e.grade_points + (if e.is_weighted then 1/2 else 0)) *
          e.credits_attempted)).sum,
     ((entries.filter (fun e => e.credits_attempted > 0)).map
        (fun e => e.credits_attempted)).sum) := by
  unfold gpaSums
  rw [gpaSums_foldl]
  simp

/-- C5: `calculate_gpa` on an empty entry list returns `(0, 0)`; an entry
with zero attempted credits contributes to neither GPA (removing it changes
nothing); when credits were attempted, the cumulative GPA is the rounded
quotient of the raw quality points (no bonus) and the weighted GPA adds the
flat `0.5` bonus for weighted entries only inside its own sum; and the
stored entries (hence their `grade_points`) are never modified. -/
theorem C5_calculate_gpa :
    calculate_gpa [] = (0, 0) ∧
    (∀ (pre post : List TranscriptEntry) (e : TranscriptEntry),
      e.credits_attempted = 0 →
      calculate_gpa (pre ++ e :: post) = calculate_gpa (pre ++ post)) ∧
    (∀ entries : List TranscriptEntry, 0 < (gpaSums entries).2.2 →
      calculate_gpa entries =
        (round3 ((gpaSums entries).1 / (gpaSums entries).2.2),
         round3 ((gpaSums entries).2.1 / (gpaSums entries).2.2))) ∧
    (∀ entries : List TranscriptEntry,
      (gpaSums entries).1 =
        ((entries.filter (fun e => e.credits_attempted > 0)).map
          (fun e => e.grade_points * e.credits_attempted)).sum ∧
      (gpaSums entries).2.1 =
        ((entries.filter (fun e => e.credits_attempted > 0)).map
          (fun e => (e.grade_points + (if e.is_weighted then 1/2 else 0)) *
            e.credits_attempted)).sum) ∧
    (∀ t : StudentTranscript, (t.calculate_gpa_state).entries = t.entries) := by
  refine ⟨by simp [calculate_gpa], ?_, ?_, ?_, ?_⟩
  · intro pre post e he
    have hne : ¬(e.credits_attempted > 0) := by rw [he]; exact lt_irrefl 0
    have hfeq : (pre ++ e :: post).filter (fun x => x.credits_attempted > 0) =
        (pre ++ post).filter (fun x => x.credits_attempted > 0) := by
      simp [List.filter_append, List.filter_cons, hne]
    have hsums : gpaSums (pre ++ e :: post) = gpaSums (pre ++ post) := by
      rw [gpaSums_eq_sums, gpaSums_eq_sums, hfeq]
    by_cases hpp : pre ++ post = []
    · obtain ⟨hpre, hpost⟩ := List.append_eq_nil.mp hpp
      subst hpre hpost
      simp [calculate_gpa, gpaSums, hne]
    · unfold calculate_gpa
      rw [if_neg (by simp), if_neg hpp, hsums]
  · intro entries hpos
    have hne : entries ≠ [] := by
      intro h
      rw [h] at hpos
      simp [gpaSums] at hpos
    unfold calculate_gpa
    rw [if_neg hne]
    dsimp only
    rw [if_pos hpos, if_pos hpos]
  · intro entries
    rw [gpaSums_eq_sums]
    exact ⟨rfl, rfl⟩
  · intro t
    unfold StudentTranscript.calculate_gpa_state
    split
    · rfl
    · rfl

/-- Concrete transcript entry used in the C5 witness. -/
def sampleEntry (c gp : ℚ) (w : Bool) : TranscriptEntry :=
  { course_code := "C", course_name := "N", term := "T", school_year := "Y",
    letter_grade := "A", credits_attempted := c, credits_earned := c,
    grade_points := gp, is_weighted := w }

/-- Witness for C5: dropping a zero-credit entry leaves both GPAs unchanged. -/
theorem C5_calculate_gpa_witness :
    (sampleEntry 0 4 false).credits_attempted = 0 ∧
    calculate_gpa ([] ++ sampleEntry 0 4 false :: [sampleEntry 1 3 true]) =
      calculate_gpa ([] ++ [sampleEntry 1 3 true]) :=
  ⟨by decide,
   C5_calculate_gpa.2.1 [] [sampleEntry 1 3 true] (sampleEntry 0 4 false)
     (by decide)⟩

end Grades

namespace Reconciliation

/-- Status of a reconciliation check (`CheckStatus` enum). -/
inductive CheckStatus where
  | passed
  | failed
  | warning
  | skipped
  | inProgress
deriving DecidableEq, Repr

/-- Categories of reconciliation checks (`CheckCategory` enum). -/
inductive CheckCategory where
  | count
  | referential
  | completeness
  | sampling
  | integrity
  | dom
deriving DecidableEq, Repr

/-- Definition of a reconciliation check (`ReconciliationCheck` dataclass). -/
structure ReconciliationCheck where
  id : String
  name : String
  category : CheckCategory
  description : String := ""
  threshold : ℚ := 1
  is_blocking : Bool := false
deriving DecidableEq, Repr

/-- Result of a single check (`CheckResult` dataclass); the timestamp and
free-form details are not modelled. -/
structure CheckResult where
  check_id : String
  check_name : String
  category : CheckCategory
  status : CheckStatus
  message : String := ""
  source_value : Option Int := none
  target_value : Option Int := none
  threshold : Option ℚ := none
  actual_value : Option ℚ := none
deriving DecidableEq, Repr

/-- `ReconciliationEngine.run_count_check` on the stored source and target
collections for the checked entity type (the `:.1%` percent formatting
inside the message string is elided). -/
def run_count_check {α : Type} (source_data target_data : List α)
    (entity_type : String) (check : ReconciliationCheck) : CheckResult :=
  let source_count := source_data.length
  let target_count := target_data.length
  if source_count = 0 then
    { check_id := check.id, check_name := check.name, category := check.category,
      status := .skipped, message := s!"No source data for {entity_type}",
      source_value := some 0, target_value := some 0 }
  else
    let match_rate : ℚ :=
      if source_count > 0 then (target_count : ℚ) / (source_count : ℚ) else 0
    let passed := match_rate ≥ check.threshold
    { check_id := check.id, check_name := check.name, category := check.category,
      status := if passed then .passed else .failed,
      message := s!"{entity_type}: {target_count}/{source_count} records",
      source_value := some (source_count : Int),
      target_value := some (target_count : Int),
      threshold := some check.threshold, actual_value := some match_rate }

/-- Engine state relevant to `get_summary`: the registered checks and the
results of the last run. -/
structure EngineState where
  checks : List ReconciliationCheck
  results : List CheckResult
deriving DecidableEq, Repr

/-- Summary dict returned by `ReconciliationEngine.get_summary`. -/
structure Summary where
  total_checks : Nat
  passed : Nat
  failed : Nat
  warnings : Nat
  skipped : Nat
  blocking_failures : Nat
  overall_status : String
  pass_rate : ℚ
deriving DecidableEq, Repr

/-- `ReconciliationEngine.get_summary`. -/
def get_summary (e : EngineState) : Summary :=
  let passed := (e.results.filter (fun r => r.status = .passed)).length
  let failed := (e.results.filter (fun r => r.status = .failed)).length
  let warnings := (e.results.filter (fun r => r.status = .warning)).length
  let skipped := (e.results.filter (fun r => r.status = .skipped)).length
  let blocking_failures := (e.results.filter (fun r => r.status = .failed ∧
    e.checks.any (fun c => c.id == r.check_id && c.is_blocking))).length
  { total_checks := e.results.length, passed := passed, failed := failed,
    warnings := warnings, skipped := skipped,
    blocking_failures := blocking_failures,
    overall_status :=
      if failed = 0 then "PASSED"
      else if blocking_failures > 0 then "BLOCKED" else "WARNING",
    pass_rate :=
      if e.results ≠ [] then (passed : ℚ) / (e.results.length : ℚ) else 0 }

/-- Modelled from the spec sentence underlying C2, i.e. the claim's reading
of the summary: overall status FAILED when a blocking-flagged check failed,
WARNING when no blocking check failed but some non-blocking failure or
warning exists, else PASSED.  Compared against `get_summary` (the code)
below. -/
def specOverallStatus (e : EngineState) : String :=
  if e.results.any (fun r => r.status = .failed ∧
      e.checks.any (fun c => c.id == r.check_id && c.is_blocking)) then "FAILED"
  else if e.results.any (fun r => r.status = .failed ∨ r.status = .warning) then
    "WARNING"
  else "PASSED"

/-- C9: a count check with an empty source collection is Skipped (never
Passed or Failed); with a non-empty source it is Passed exactly when
`target_count / source_count` reaches the threshold and Failed otherwise. -/
theorem C9_count_check_status {α : Type} (source_data target_data : List α)
    (entity_type : String) (check : ReconciliationCheck) :
    (run_count_check source_data target_data entity_type check).status =
      if source_data.length = 0 then .skipped
      else if check.threshold ≤ (target_data.length : ℚ) / (source_data.length : ℚ)
        then .passed
      else .failed := by
  by_cases h : source_data.length = 0
  · simp [run_count_check, h]
  · have hpos : source_data.length > 0 := Nat.pos_of_ne_zero h
    simp only [run_count_check, if_neg h, if_pos hpos]

/-- Engine state with one registered non-blocking check whose result is a
Warning and no failures. -/
def warnState : EngineState :=
  { checks := [{ id := "complete_student_contact", name := "Student Contact Info",
                 category := .completeness, threshold := 99/100 }],
    results := [{ check_id := "complete_student_contact",
                  check_name := "Student Contact Info",
                  category := .completeness, status := .warning }] }

/-- Engine state with one registered blocking check whose result is Failed. -/
def blockState : EngineState :=
  { checks := [{ id := "count_students", name := "Student Count Match",
                 category := .count, is_blocking := true }],
    results := [{ check_id := "count_students", check_name := "Student Count Match",
                  category := .count, status := .failed }] }

/-- Counterexample to C2: with one non-blocking Warning result and no
failures the code reports overall status "PASSED" where the claim demands
WARNING, and with a blocking failure the code reports "BLOCKED" where the
claim says FAILED. -/
theorem C2_summary_counterexample :
    (get_summary warnState).overall_status = "PASSED" ∧
    specOverallStatus warnState = "WARNING" ∧
    (get_summary warnState).overall_status ≠ specOverallStatus warnState ∧
    (get_summary blockState).overall_status = "BLOCKED" ∧
    specOverallStatus blockState = "FAILED" ∧
    (get_summary blockState).overall_status ≠ specOverallStatus blockState := by
  refine ⟨?_, ?_, ?_, ?_, ?_, ?_⟩ <;> decide

theorem filter_length_pos_iff {α : Type} (l : List α) (p : α → Bool) :
    0 < (l.filter p).length ↔ ∃ a ∈ l, p a = true := by
  rw [List.length_pos, Ne, List.filter_eq_nil_iff]
  push_neg
  simp

/-- C2 amended: `get_summary` reports "BLOCKED" (not FAILED) when some
Failed result belongs to a blocking-flagged check, "WARNING" when failures
exist but none is blocking, and "PASSED" when no result failed — warnings
alone do not change the overall status; `pass_rate` is the Passed count over
the total result count when results exist, else 0. -/
theorem C2_summary_amended (e : EngineState) :
    ((∃ r ∈ e.results, r.status = .failed ∧
        e.checks.any (fun c => c.id == r.check_id && c.is_blocking) = true) →
      (get_summary e).overall_status = "BLOCKED") ∧
    ((∃ r ∈ e.results, r.status = .failed) →
      (¬ ∃ r ∈ e.results, r.status = .failed ∧
        e.checks.any (fun c => c.id == r.check_id && c.is_blocking) = true) →
      (get_summary e).overall_status = "WARNING") ∧
    ((¬ ∃ r ∈ e.results, r.status = .failed) →
      (get_summary e).overall_status = "PASSED") ∧
    (e.results ≠ [] →
      (get_summary e).pass_rate =
        ((e.results.filter (fun r => r.status = .passed)).length : ℚ) /
          (e.results.length : ℚ)) ∧
    (e.results = [] → (get_summary e).pass_rate = 0) := by
  have hblock : 0 < (e.results.filter (fun r => r.status = .failed ∧
      e.checks.any (fun c => c.id == r.check_id && c.is_blocking))).length ↔
      ∃ r ∈ e.results, r.status = .failed ∧
        e.checks.any (fun c => c.id == r.check_id && c.is_blocking) = true := by
    rw [filter_length_pos_iff]
    simp
  have hfail : 0 < (e.results.filter (fun r => r.status = .failed)).length ↔
      ∃ r ∈ e.results, r.status = .failed := by
    rw [filter_length_pos_iff]
    simp
  refine ⟨?_, ?_, ?_, ?_, ?_⟩
  · intro hex
    have hb := hblock.mpr hex
    have hf : 0 < (e.results.filter (fun r => r.status = .failed)).length := by
      obtain ⟨r, hr, hrf, _⟩ := hex
      exact hfail.mpr ⟨r, hr, hrf⟩
    simp only [get_summary]
    rw [if_neg (by omega), if_pos hb]
  · intro hex hnb
    have hf := hfail.mpr hex
    have hb : ¬ 0 < (e.results.filter (fun r => r.status = .failed ∧
        e.checks.any (fun c => c.id == r.check_id && c.is_blocking))).length := by
      rw [hblock]
      exact hnb
    simp only [get_summary]
    rw [if_neg (by omega), if_neg hb]
  · intro hne
    have hf : (e.results.filter (fun r => r.status = .failed)).length = 0 := by
      by_contra hc
      exact hne (hfail.mp (Nat.pos_of_ne_zero hc))
    simp only [get_summary]
    rw [if_pos hf]
  · intro hne
    simp only [get_summary]
    rw [if_pos hne]
  · intro hnil
    simp only [get_summary]
    rw [if_neg (by simp [hnil])]

/-- Witness for the amended C2 at the two concrete engine states. -/
theorem C2_summary_amended_witness :
    (¬ ∃ r ∈ warnState.results, r.status = CheckStatus.failed) ∧
    (get_summary warnState).overall_status = "PASSED" ∧
    (∃ r ∈ blockState.results, r.status = CheckStatus.failed ∧
      blockState.checks.any
        (fun c => c.id == r.check_id && c.is_blocking) = true) ∧
    (get_summary blockState).overall_status = "BLOCKED" ∧
    warnState.results ≠ [] ∧
    (get_summary warnState).pass_rate =
      ((warnState.results.filter
        (fun r => r.status = CheckStatus.passed)).length : ℚ) /
        (warnState.results.length : ℚ) :=
  ⟨by decide, (C2_summary_amended warnState).2.2.1 (by decide),
   by decide, (C2_summary_amended blockState).1 (by decide),
   by decide, (C2_summary_amended warnState).2.2.2.1 (by decide)⟩

end Reconciliation

namespace Identity

/-- Confidence levels for identity matches (`MatchConfidence` enum). -/
inductive MatchConfidence where
  | exact
  | high
  | medium
  | low
  | noMatch
deriving DecidableEq, Repr

/-- Result of an identity match operation (`MatchResult` dataclass). -/
structure MatchResult where
  source_id : String
  target_id : String
  confidence : MatchConfidence
  match_score : ℚ
  matched_fields : List String
  mismatched_fields : List String := []
  notes : String := ""
deriving DecidableEq, Repr

/-- A source person record, as the dict handed to `match_records` and
`resolve_identity`: a key that may be absent (or `None`) is `none`.  Values
are strings (dates already in their `str` form). -/
structure PersonRecord where
  student_id : Option String := none
  id : Option String := none
  first_name : Option String := none
  last_name : Option String := none
  email : Option String := none
  state_id : Option String := none
  phone : Option String := none
  date_of_birth : Option String := none
  dob : Option String := none
deriving DecidableEq, Repr

/-- Python truthiness of an optional string: `None` and `""` are falsy. -/
def truthy : Option String → Bool
  | none => false
  | some s => s ≠ ""

/-- Python `a or b` on optional strings: the first operand when truthy,
otherwise the second. -/
def pyOr (a b : Option String) : Option String := if truthy a then a else b

/-- Characters kept by the `[^\w\s]` removal in `normalize_name`
(ASCII model of `\w`). -/
def isWordChar (c : Char) : Bool := c.isAlphanum || c = '_'

/-- Collapse every maximal whitespace run to a single space
(the `re.sub(r'\s+', ' ', ...)` step). -/
def collapseWsAux : Bool → List Char → List Char
  | _, [] => []
  | prevWs, c :: rest =>
    if c.isWhitespace then
      if prevWs then collapseWsAux true rest
      else ' ' :: collapseWsAux true rest
    else c :: collapseWsAux false rest

/-- `IdentityResolver.normalize_name`: strip, lowercase, drop characters
outside `\w`/`\s`, collapse whitespace runs. -/
def normalize_name (name : String) : String :=
  if name = "" then ""
  else
    let s := pyLower (pyStrip name)
    String.mk (collapseWsAux false
      (s.data.filter (fun c => isWordChar c || c.isWhitespace)))

/-- `IdentityResolver.normalize_email`. -/
def normalize_email (email : String) : String :=
  if email = "" then "" else pyLower (pyStrip email)

/-- `IdentityResolver.normalize_phone`: digits only. -/
def normalize_phone (phone : String) : String :=
  if phone = "" then "" else String.mk (phone.data.filter Char.isDigit)

/-- Python `phone[-10:]`. -/
def last10 (s : String) : String := String.mk (s.data.drop (s.data.length - 10))

/-- Rule 1 of `match_records` (state id): `none` when either record lacks a
truthy state id, else whether the stripped values coincide. -/
def rule_state (r1 r2 : PersonRecord) : Option Bool :=
  if truthy r1.state_id && truthy r2.state_id then
    some (decide (pyStrip (r1.state_id.getD "") = pyStrip (r2.state_id.getD "")))
  else none

/-- Rule 2 of `match_records` (email): `none` when either normalized email
is empty. -/
def rule_email (r1 r2 : PersonRecord) : Option Bool :=
  if normalize_email (r1.email.getD "") ≠ "" ∧ normalize_email (r2.email.getD "") ≠ ""
  then some (decide (normalize_email (r1.email.getD "") =
    normalize_email (r2.email.getD "")))
  else none

/-- Rule 3 of `match_records` on one normalized name pair: matched when
equal and non-empty, mismatched when both non-empty and different, else
skipped. -/
def rule_name (n1 n2 : String) : Option Bool :=
  if n1 = n2 ∧ n1 ≠ "" then some true
  else if n1 ≠ "" ∧ n2 ≠ "" then some false
  else none

/-- Rule 4 of `match_records` (date of birth, `date_of_birth` falling back
to `dob` through Python `or`). -/
def rule_dob (r1 r2 : PersonRecord) : Option Bool :=
  if truthy (pyOr r1.date_of_birth r1.dob) && truthy (pyOr r2.date_of_birth r2.dob)
  then some (decide ((pyOr r1.date_of_birth r1.dob).getD "" =
    (pyOr r2.date_of_birth r2.dob).getD ""))
  else none

/-- Rule 5 of `match_records` (phone): both normalized phones non-empty with
at least 10 digits and equal last 10 digits; never records a mismatch. -/
def rule_phone (r1 r2 : PersonRecord) : Bool :=
  decide (normalize_phone (r1.phone.getD "") ≠ "" ∧
    normalize_phone (r2.phone.getD "") ≠ "" ∧
    10 ≤ (normalize_phone (r1.phone.getD "")).data.length ∧
    10 ≤ (normalize_phone (r2.phone.getD "")).data.length ∧
    last10 (normalize_phone (r1.phone.getD "")) =
      last10 (normalize_phone (r2.phone.getD "")))

/-- Confidence tier from the matched field list and the score
(lines 243-252 of `identity.py`). -/
def classifyConfidence (matched_fields : List String) (score : ℚ) :
    MatchConfidence :=
  if "state_id" ∈ matched_fields then .exact
  else if score ≥ 4/5 then .high
  else if score ≥ 1/2 then .medium
  else if score ≥ 3/10 then .low
  else .noMatch

/-- `IdentityResolver.match_records`: apply the five deterministic rules,
accumulate the matched and mismatched field lists and the weighted score
(0.4 state id, 0.25 email, 0.15 each name part and dob, 0.1 phone), then
classify. -/
def match_records (r1 r2 : PersonRecord) (source1 source2 : String) :
    MatchResult :=
  let st := rule_state r1 r2
  let em := rule_email r1 r2
  let fn := rule_name (normalize_name (r1.first_name.getD ""))
    (normalize_name (r2.first_name.getD ""))
  let ln := rule_name (normalize_name (r1.last_name.getD ""))
    (normalize_name (r2.last_name.getD ""))
  let db := rule_dob r1 r2
  let ph := rule_phone r1 r2
  let matched_fields :=
    (if st = some true then ["state_id"] else []) ++
    (if em = some true then ["email"] else []) ++
    (if fn = some true then ["first_name"] else []) ++
    (if ln = some true then ["last_name"] else []) ++
    (if db = some true then ["date_of_birth"] else []) ++
    (if ph then ["phone"] else [])
  let mismatched_fields :=
    (if st = some false then ["state_id"] else []) ++
    (if em = some false then ["email"] else []) ++
    (if fn = some false then ["first_name"] else []) ++
    (if ln = some false then ["last_name"] else []) ++
    (if db = some false then ["date_of_birth"] else [])
  let score : ℚ :=
    (if st = some true then 2/5 else 0) + (if em = some true then 1/4 else 0) +
    (if fn = some true then 3/20 else 0) + (if ln = some true then 3/20 else 0) +
    (if db = some true then 3/20 else 0) + (if ph then 1/10 else 0)
  { source_id := source1 ++ ":" ++ (r1.student_id.getD (r1.id.getD "unknown")),
    target_id := source2 ++ ":" ++ (r2.student_id.getD (r2.id.getD "unknown")),
    confidence := classifyConfidence matched_fields score,
    match_score := score,
    matched_fields := matched_fields,
    mismatched_fields := mismatched_fields }

/-- C3: two records with truthy state ids that are identical after
normalization (stripping) match with confidence Exact; in general the
confidence equals the tier of the result's own matched fields and score:
Exact when state_id matched, else High at score ≥ 0.8, Medium at ≥ 0.5,
Low at ≥ 0.3, else NoMatch. -/
theorem C3_state_id_exact (r1 r2 : PersonRecord) (s1 s2 : String) :
    (truthy r1.state_id = true → truthy r2.state_id = true →
      pyStrip (r1.state_id.getD "") = pyStrip (r2.state_id.getD "") →
      (match_records r1 r2 s1 s2).confidence = .exact) ∧
    (match_records r1 r2 s1 s2).confidence =
      (if "state_id" ∈ (match_records r1 r2 s1 s2).matched_fields then .exact
       else if (match_records r1 r2 s1 s2).match_score ≥ 4/5 then .high
       else if (match_records r1 r2 s1 s2).match_score ≥ 1/2 then .medium
       else if (match_records r1 r2 s1 s2).match_score ≥ 3/10 then .low
       else .noMatch) := by
  constructor
  · intro h1 h2 h3
    have hst : rule_state r1 r2 = some true := by
      unfold rule_state
      rw [if_pos (by rw [h1, h2]; rfl)]
      simp [h3]
    have hmem : "state_id" ∈ (match_records r1 r2 s1 s2).matched_fields := by
      simp only [match_records, hst]
      simp
    show classifyConfidence (match_records r1 r2 s1 s2).matched_fields
      (match_records r1 r2 s1 s2).match_score = .exact
    unfold classifyConfidence
    rw [if_pos hmem]
  · rfl

/-- Concrete records for the C3 witness: equal state ids modulo stripping. -/
def recA : PersonRecord := { student_id := some "a1", state_id := some " S42 " }

/-- Second concrete record for the C3 witness. -/
def recB : PersonRecord := { id := some "b2", state_id := some "S42" }

/-- Witness for C3: the two sample records match Exact. -/
theorem C3_state_id_exact_witness :
    truthy recA.state_id = true ∧ truthy recB.state_id = true ∧
    pyStrip (recA.state_id.getD "") = pyStrip (recB.state_id.getD "") ∧
    (match_records recA recB "sis" "hr").confidence = .exact :=
  ⟨by decide, by decide, by decide,
   (C3_state_id_exact recA recB "sis" "hr").1 (by decide) (by decide) (by decide)⟩

theorem rule_state_symm (r1 r2 : PersonRecord) :
    rule_state r1 r2 = rule_state r2 r1 := by
  unfold rule_state
  cases h1 : truthy r1.state_id <;> cases h2 : truthy r2.state_id <;>
    simp [h1, h2, eq_comm]

theorem rule_email_symm (r1 r2 : PersonRecord) :
    rule_email r1 r2 = rule_email r2 r1 := by
  unfold rule_email
  by_cases h1 : normalize_email (r1.email.getD "") = "" <;>
    by_cases h2 : normalize_email (r2.email.getD "") = "" <;>
    simp [h1, h2, eq_comm]

theorem rule_name_symm (n1 n2 : String) : rule_name n1 n2 = rule_name n2 n1 := by
  unfold rule_name
  by_cases heq : n1 = n2
  · subst heq
    rfl
  · have heq' : ¬ n2 = n1 := fun h => heq h.symm
    by_cases h1 : n1 = "" <;> by_cases h2 : n2 = "" <;>
      simp [heq, heq', h1, h2]

theorem rule_dob_symm (r1 r2 : PersonRecord) :
    rule_dob r1 r2 = rule_dob r2 r1 := by
  unfold rule_dob
  cases h1 : truthy (pyOr r1.date_of_birth r1.dob) <;>
    cases h2 : truthy (pyOr r2.date_of_birth r2.dob) <;>
    simp [h1, h2, eq_comm]

theorem rule_phone_symm (r1 r2 : PersonRecord) :
    rule_phone r1 r2 = rule_phone r2 r1 := by
  unfold rule_phone
  simp only [decide_eq_decide]
  constructor <;> rintro ⟨a, b, c, d, e⟩ <;> exact ⟨b, a, d, c, e.symm⟩

/-- C10: `match_records` is symmetric in its two record arguments: whatever
source labels are used, swapping the records preserves the match score, the
confidence tier and the matched/mismatched field lists; with the labels
swapped as well, the source/target ids are exactly exchanged. -/
theorem C10_match_records_symm (r1 r2 : PersonRecord) (s1 s2 t1 t2 : String) :
    (match_records r1 r2 s1 s2).match_score =
      (match_records r2 r1 t1 t2).match_score ∧
    (match_records r1 r2 s1 s2).confidence =
      (match_records r2 r1 t1 t2).confidence ∧
    (match_records r1 r2 s1 s2).matched_fields =
      (match_records r2 r1 t1 t2).matched_fields ∧
    (match_records r1 r2 s1 s2).mismatched_fields =
      (match_records r2 r1 t1 t2).mismatched_fields ∧
    (match_records r2 r1 s2 s1).source_id = (match_records r1 r2 s1 s2).target_id ∧
    (match_records r2 r1 s2 s1).target_id = (match_records r1 r2 s1 s2).source_id := by
  refine ⟨?_, ?_, ?_, ?_, rfl, rfl⟩ <;>
    simp only [match_records, ← rule_state_symm r1 r2, ← rule_email_symm r1 r2,
      ← rule_name_symm (normalize_name (r1.first_name.getD ""))
        (normalize_name (r2.first_name.getD "")),
      ← rule_name_symm (normalize_name (r1.last_name.getD ""))
        (normalize_name (r2.last_name.getD "")),
      ← rule_dob_symm r1 r2, ← rule_phone_symm r1 r2]

/-- A golden record (`GoldenRecord` dataclass); `source_ids` is the
insertion-ordered source → id dict. -/
structure GoldenRecord where
  golden_id : String
  primary_source : String
  source_ids : List (String × String) := []
  first_name : String := ""
  last_name : String := ""
  date_of_birth : Option String := none
  email : Option String := none
  state_id : Option String := none
  merged_from : List String := []
  confidence : ℚ := 1
deriving DecidableEq, Repr

/-- Python `str` of an optional value inside an f-string: `None` prints as
"None". -/
def pyStrOpt : Option String → String
  | none => "None"
  | some s => s

/-- Dict assignment `d[k] = v` on an insertion-ordered association list:
update in place when the key exists, else append. -/
def alSet {β : Type} (k : String) (v : β) : List (String × β) → List (String × β)
  | [] => [(k, v)]
  | (k1, v1) :: rest =>
    if k1 = k then (k1, v) :: rest else (k1, v1) :: alSet k v rest

/-- `GoldenRecord.add_source_id`: store the source system id and record the
source in `merged_from`; the `golden_id` is untouched. -/
def GoldenRecord.add_source_id (g : GoldenRecord) (source source_id : String) :
    GoldenRecord :=
  { g with source_ids := alSet source source_id g.source_ids,
           merged_from := if source ∈ g.merged_from then g.merged_from
                          else g.merged_from ++ [source] }

/-- `GoldenRecord.generate_golden_id`.  `digest` stands for the
`hashlib.md5(key.encode()).hexdigest()[:12].upper()` pipeline, which is a
pure function of the key string; the claims proved below rely only on that
functionality, so the theorems quantify over `digest`. -/
def GoldenRecord.generate_golden_id (digest : String → String)
    (g : GoldenRecord) : String :=
  "GR-" ++ digest (g.first_name ++ "|" ++ g.last_name ++ "|" ++
    pyStrOpt g.date_of_birth ++ "|" ++ pyStrOpt g.state_id)

/-- Python `str.title()` (ASCII model): uppercase each letter that follows a
non-letter, lowercase the rest. -/
def titleAux : Bool → List Char → List Char
  | _, [] => []
  | prevAlpha, c :: rest =>
    if c.isAlpha then
      (if prevAlpha then c.toLower else c.toUpper) :: titleAux true rest
    else c :: titleAux false rest

/-- Python `str.title()`. -/
def pyTitle (s : String) : String := String.mk (titleAux false s.data)

/-- Mutable state of an `IdentityResolver`: `golden_records` is the
golden_id → record dict, `source_to_golden` the source → (source_id →
golden_id) dict. -/
structure ResolverState where
  golden_records : List (String × GoldenRecord) := []
  source_to_golden : List (String × List (String × String)) := []
deriving DecidableEq, Repr

/-- The comparison dict built from a golden record inside
`resolve_identity`. -/
def goldenDict (g : GoldenRecord) : PersonRecord :=
  { first_name := some g.first_name, last_name := some g.last_name,
    email := g.email, state_id := g.state_id, date_of_birth := g.date_of_birth }

/-- The matching loop of `resolve_identity`: first golden record matching
with confidence Exact or High, in dict insertion order. -/
def findMatch (record : PersonRecord) (source : String) :
    List (String × GoldenRecord) → Option (String × GoldenRecord)
  | [] => none
  | (gid, g) :: rest =>
    if (match_records record (goldenDict g) source "golden").confidence = .exact ∨
       (match_records record (goldenDict g) source "golden").confidence = .high
    then some (gid, g)
    else findMatch record source rest

/-- The `source_to_golden[source][source_id] = golden_id` update. -/
def updateS2G (s2g : List (String × List (String × String)))
    (source source_id gid : String) : List (String × List (String × String)) :=
  alSet source (alSet source_id gid ((s2g.lookup source).getD [])) s2g

/-- `IdentityResolver.resolve_identity`: returns the updated state together
with `(golden_id, is_new_record)`. -/
def resolve_identity (digest : String → String) (st : ResolverState)
    (record : PersonRecord) (source : String) : ResolverState × String × Bool :=
  let source_id := record.student_id.getD (record.id.getD "")
  match (st.source_to_golden.lookup source).bind
    (fun m => m.lookup source_id) with
  | some gid => (st, gid, false)
  | none =>
    match findMatch record source st.golden_records with
    | some (gid, g) =>
      ({ golden_records := alSet gid (g.add_source_id source source_id)
           st.golden_records,
         source_to_golden := updateS2G st.source_to_golden source source_id gid },
       gid, false)
    | none =>
      let golden0 : GoldenRecord :=
        { golden_id := "", primary_source := source,
          first_name := pyTitle (pyStrip (record.first_name.getD "")),
          last_name := pyTitle (pyStrip (record.last_name.getD "")),
          email := record.email, state_id := record.state_id,
          date_of_birth := record.date_of_birth }
      let golden1 := golden0.add_source_id source source_id
      let gid := GoldenRecord.generate_golden_id digest golden1
      ({ golden_records := alSet gid { golden1 with golden_id := gid }
           st.golden_records,
         source_to_golden := updateS2G st.source_to_golden source source_id gid },
       gid, true)

theorem alSet_mem {β : Type} (k : String) (v : β) (l : List (String × β)) :
    ∀ p ∈ alSet k v l, p ∈ l ∨ p = (k, v) := by
  induction l with
  | nil =>
    intro p hp
    simp only [alSet, List.mem_singleton] at hp
    exact Or.inr hp
  | cons kv rest ih =>
    obtain ⟨k1, v1⟩ := kv
    intro p hp
    by_cases hk : k1 = k
    · simp only [alSet, if_pos hk, List.mem_cons] at hp
      rcases hp with hp | hp
      · subst hk
        exact Or.inr hp
      · exact Or.inl (List.mem_cons_of_mem _ hp)
    · simp only [alSet, if_neg hk, List.mem_cons] at hp
      rcases hp with hp | hp
      · exact Or.inl (by simp [hp])
      · rcases ih p hp with h | h
        · exact Or.inl (List.mem_cons_of_mem _ h)
        · exact Or.inr h

theorem alSet_keys {β : Type} (k : String) (v : β) (l : List (String × β))
    (k0 : String) (h : ∃ g, (k0, g) ∈ l) : ∃ g, (k0, g) ∈ alSet k v l := by
  induction l with
  | nil => simp at h
  | cons kv rest ih =>
    obtain ⟨k1, v1⟩ := kv
    obtain ⟨g, hg⟩ := h
    by_cases hk : k1 = k
    · simp only [alSet, if_pos hk]
      rcases List.mem_cons.mp hg with hg | hg
      · injection hg with h1 _
        exact ⟨v, by rw [h1]; exact List.mem_cons_self _ _⟩
      · exact ⟨g, List.mem_cons_of_mem _ hg⟩
    · simp only [alSet, if_neg hk]
      rcases List.mem_cons.mp hg with hg | hg
      · injection hg with h1 _
        exact ⟨v1, by rw [h1]; exact List.mem_cons_self _ _⟩
      · obtain ⟨g2, hg2⟩ := ih ⟨g, hg⟩
        exact ⟨g2, List.mem_cons_of_mem _ hg2⟩

theorem findMatch_mem (record : PersonRecord) (source : String)
    (l : List (String × GoldenRecord)) (gid : String) (g : GoldenRecord)
    (h : findMatch record source l = some (gid, g)) : (gid, g) ∈ l := by
  induction l with
  | nil => simp [findMatch] at h
  | cons kv rest ih =>
    obtain ⟨k1, g1⟩ := kv
    by_cases hc : (match_records record (goldenDict g1) source "golden").confidence
        = MatchConfidence.exact ∨
        (match_records record (goldenDict g1) source "golden").confidence
        = MatchConfidence.high
    · simp only [findMatch, if_pos hc, Option.some.injEq] at h
      exact h ▸ List.mem_cons_self _ _
    · simp only [findMatch, if_neg hc] at h
      exact List.mem_cons_of_mem _ (ih h)

/-- C4: golden-id generation is deterministic — two records with the same
normalized (first name, last name, date of birth, state id) tuple resolved
in two freshly constructed resolvers receive the same golden id, for every
digest function; and a golden id, once a golden record is stored under it,
never changes: every `resolve_identity` step keeps each stored record's
`golden_id` equal to its dict key and never removes a key. -/
theorem C4_golden_id_deterministic (digest : String → String) :
    (∀ (r1 r2 : PersonRecord) (src1 src2 : String),
      pyTitle (pyStrip (r1.first_name.getD "")) =
        pyTitle (pyStrip (r2.first_name.getD "")) →
      pyTitle (pyStrip (r1.last_name.getD "")) =
        pyTitle (pyStrip (r2.last_name.getD "")) →
      r1.date_of_birth = r2.date_of_birth →
      r1.state_id = r2.state_id →
      (resolve_identity digest {} r1 src1).2.1 =
        (resolve_identity digest {} r2 src2).2.1) ∧
    (∀ (st : ResolverState) (record : PersonRecord) (source : String),
      (∀ p ∈ st.golden_records, p.2.golden_id = p.1) →
      (∀ p ∈ (resolve_identity digest st record source).1.golden_records,
        p.2.golden_id = p.1) ∧
      (∀ k : String, (∃ g, (k, g) ∈ st.golden_records) →
        ∃ g, (k, g) ∈ (resolve_identity digest st record source).1.golden_records)) := by
  constructor
  · intro r1 r2 src1 src2 hfn hln hdob hsid
    have hkey1 : (resolve_identity digest {} r1 src1).2.1 =
        "GR-" ++ digest (pyTitle (pyStrip (r1.first_name.getD "")) ++ "|" ++
          pyTitle (pyStrip (r1.last_name.getD "")) ++ "|" ++
          pyStrOpt r1.date_of_birth ++ "|" ++ pyStrOpt r1.state_id) := rfl
    have hkey2 : (resolve_identity digest {} r2 src2).2.1 =
        "GR-" ++ digest (pyTitle (pyStrip (r2.first_name.getD "")) ++ "|" ++
          pyTitle (pyStrip (r2.last_name.getD "")) ++ "|" ++
          pyStrOpt r2.date_of_birth ++ "|" ++ pyStrOpt r2.state_id) := rfl
    rw [hkey1, hkey2, hfn, hln, hdob, hsid]
  · intro st record source hinv
    rcases hlk : (st.source_to_golden.lookup source).bind
        (fun m => m.lookup (record.student_id.getD (record.id.getD ""))) with _ | gid
    · rcases hfm : findMatch record source st.golden_records with _ | ⟨gid, g⟩
      · simp only [resolve_identity, hlk, hfm]
        constructor
        · intro p hp
          rcases alSet_mem _ _ _ p hp with h | h
          · exact hinv p h
          · rw [h]
        · intro k hk
          exact alSet_keys _ _ _ k hk
      · simp only [resolve_identity, hlk, hfm]
        have hmem := findMatch_mem record source st.golden_records gid g hfm
        have hgid : g.golden_id = gid := hinv (gid, g) hmem
        constructor
        · intro p hp
          rcases alSet_mem _ _ _ p hp with h | h
          · exact hinv p h
          · rw [h]
            exact hgid
        · intro k hk
          exact alSet_keys _ _ _ k hk
    · simp only [resolve_identity, hlk]
      exact ⟨hinv, fun k hk => hk⟩

/-- Pre-existing golden record for the C4 witness. -/
def g0 : GoldenRecord := { golden_id := "G1", primary_source := "sis" }

/-- Resolver state holding `g0` for the C4 witness. -/
def st0 : ResolverState := { golden_records := [("G1", g0)] }

/-- First sample record for the C4 witness. -/
def recC : PersonRecord :=
  { first_name := some "  jane ", last_name := some "DOE",
    date_of_birth := some "2010-01-02", state_id := some "S7" }

/-- Second sample record for the C4 witness, same normalized tuple. -/
def recD : PersonRecord :=
  { first_name := some "Jane", last_name := some "doe",
    date_of_birth := some "2010-01-02", state_id := some "S7" }

/-- Witness for C4 at concrete records, states and digest. -/
theorem C4_golden_id_deterministic_witness :
    pyTitle (pyStrip (recC.first_name.getD "")) =
      pyTitle (pyStrip (recD.first_name.getD "")) ∧
    pyTitle (pyStrip (recC.last_name.getD "")) =
      pyTitle (pyStrip (recD.last_name.getD "")) ∧
    recC.date_of_birth = recD.date_of_birth ∧
    recC.state_id = recD.state_id ∧
    (resolve_identity (fun s => s) {} recC "sis").2.1 =
      (resolve_identity (fun s => s) {} recD "hr").2.1 ∧
    (∃ g, ("G1", g) ∈
      (resolve_identity (fun s => s) st0 recC "sis").1.golden_records) :=
  ⟨by decide, by decide, rfl, rfl,
   (C4_golden_id_deterministic (fun s => s)).1 recC recD "sis" "hr"
     (by decide) (by decide) rfl rfl,
   ((C4_golden_id_deterministic (fun s => s)).2 st0 recC "sis"
     (by decide)).2 "G1" ⟨g0, by decide⟩⟩

end Identity

namespace Enrollment

/-- A student's enrollment period at a school (`EnrollmentSpan` dataclass);
dates are day numbers, an ongoing enrollment has `end_date = none`. -/
structure EnrollmentSpan where
  id : String
  student_id : String
  school_id : String
  school_name : String := ""
  grade_level : Int := 0
  start_date : Nat
  end_date : Option Nat := none
  status : String := "active"
deriving DecidableEq, Repr

/-- `EnrollmentSpan.overlaps_with`, returning `(overlaps, overlap_days)`;
`today` stands for `date.today()` substituted for a missing end date.  When
both spans are ongoing the result is whether they target the same school. -/
def overlaps_with (today : Nat) (a b : EnrollmentSpan) : Bool × Int :=
  match a.end_date, b.end_date with
  | none, none => (a.school_id == b.school_id, 0)
  | _, _ =>
    let self_end := a.end_date.getD today
    let other_end := b.end_date.getD today
    if a.start_date ≤ other_end ∧ b.start_date ≤ self_end then
      (true, ((min self_end other_end : Nat) : Int) -
        ((max a.start_date b.start_date : Nat) : Int) + 1)
    else (false, 0)

/-- The resolution loop of `normalize_enrollments`: `last` is the last span
already kept (`resolved[-1]`); an overlapping same-school span is merged
destructively by extending `last`'s end date when the incoming concrete end
is later (or `last` is ongoing), otherwise the span is kept separately. -/
def resolveOverlaps (today : Nat) (last : EnrollmentSpan) :
    List EnrollmentSpan → List EnrollmentSpan
  | [] => [last]
  | e :: es =>
    if (overlaps_with today last e).1 && last.school_id == e.school_id then
      match e.end_date with
      | some d =>
        match last.end_date with
        | none => resolveOverlaps today { last with end_date := some d } es
        | some ld =>
          if ld < d then resolveOverlaps today { last with end_date := some d } es
          else resolveOverlaps today last es
      | none => resolveOverlaps today last es
    else last :: resolveOverlaps today e es

/-- Stable insertion of a span into a list sorted by start date: placed
before the first strictly later start, after equal starts. -/
def insertSorted (e : EnrollmentSpan) : List EnrollmentSpan → List EnrollmentSpan
  | [] => [e]
  | x :: xs =>
    if e.start_date ≤ x.start_date then e :: x :: xs else x :: insertSorted e xs

/-- Python `sorted(enrollments, key=lambda e: e.start_date)`: the stable
sort by start date (a stable sort by one key is a unique function of the
input, so insertion sort realizes exactly Python's Timsort result). -/
def sortByStart (l : List EnrollmentSpan) : List EnrollmentSpan :=
  l.foldr insertSorted []

/-- `EnrollmentProcessor.normalize_enrollments` on one student's span list:
sort by start date, then resolve overlaps left to right. -/
def normalize_enrollments (today : Nat) (enrollments : List EnrollmentSpan) :
    List EnrollmentSpan :=
  match sortByStart enrollments with
  | [] => []
  | x :: xs => resolveOverlaps today x xs

/-- Days covered by one span, an ongoing span reaching `today` (the
convention `end_date or today` used by `overlaps_with` and `is_active`). -/
def coveredDays (today : Nat) (s : EnrollmentSpan) : Finset ℕ :=
  Finset.Icc s.start_date (s.end_date.getD today)

/-- Days covered by a list of spans. -/
def coveredSet (today : Nat) : List EnrollmentSpan → Finset ℕ
  | [] => ∅
  | s :: rest => coveredDays today s ∪ coveredSet today rest

/-- A span whose end date does not precede its start date. -/
def endOk (s : EnrollmentSpan) : Bool :=
  match s.end_date with
  | none => true
  | some d => s.start_date ≤ d

theorem mem_coveredSet (today : Nat) (l : List EnrollmentSpan) (n : ℕ) :
    n ∈ coveredSet today l ↔ ∃ s ∈ l, n ∈ coveredDays today s := by
  induction l with
  | nil => simp [coveredSet]
  | cons s rest ih => simp [coveredSet, ih]

theorem mem_insertSorted (e x : EnrollmentSpan) (l : List EnrollmentSpan) :
    x ∈ insertSorted e l ↔ x = e ∨ x ∈ l := by
  induction l with
  | nil => simp [insertSorted]
  | cons y ys ih =>
    simp only [insertSorted]
    split
    · simp
    · simp [ih]
      tauto

theorem mem_sortByStart (x : EnrollmentSpan) (l : List EnrollmentSpan) :
    x ∈ sortByStart l ↔ x ∈ l := by
  induction l with
  | nil => simp [sortByStart]
  | cons y ys ih =>
    show x ∈ insertSorted y (sortByStart ys) ↔ _
    rw [mem_insertSorted]
    simp [ih]

theorem sorted_insertSorted (e : EnrollmentSpan) (l : List EnrollmentSpan)
    (h : l.Pairwise (fun a b => a.start_date ≤ b.start_date)) :
    (insertSorted e l).Pairwise (fun a b => a.start_date ≤ b.start_date) := by
  induction l with
  | nil => simp [insertSorted]
  | cons y ys ih =>
    obtain ⟨hy, hys⟩ := List.pairwise_cons.mp h
    simp only [insertSorted]
    split
    · rename_i hle
      refine List.pairwise_cons.mpr ⟨?_, h⟩
      intro z hz
      rcases List.mem_cons.mp hz with rfl | hz
      · exact hle
      · exact le_trans hle (hy z hz)
    · rename_i hgt
      have hyx : y.start_date ≤ e.start_date := le_of_lt (not_le.mp hgt)
      refine List.pairwise_cons.mpr ⟨?_, ih hys⟩
      intro z hz
      rcases (mem_insertSorted e z ys).mp hz with rfl | hz
      · exact hyx
      · exact hy z hz

theorem sorted_sortByStart (l : List EnrollmentSpan) :
    (sortByStart l).Pairwise (fun a b => a.start_date ≤ b.start_date) := by
  induction l with
  | nil => simp [sortByStart]
  | cons y ys ih => exact sorted_insertSorted y (sortByStart ys) ih

theorem resolveOverlaps_covered (today : Nat) (xs : List EnrollmentSpan) :
    ∀ x : EnrollmentSpan,
    (∀ s ∈ x :: xs, s.end_date.isSome = true) →
    (x :: xs).Pairwise (fun a b => a.start_date ≤ b.start_date) →
    coveredSet today (x :: xs) ⊆ coveredSet today (resolveOverlaps today x xs) := by
  induction xs with
  | nil =>
    intro x _ _
    exact fun n hn => hn
  | cons e es ih =>
    intro x hall hsorted
    obtain ⟨xe, hxe⟩ : ∃ xe, x.end_date = some xe :=
      Option.isSome_iff_exists.mp (hall x (List.mem_cons_self _ _))
    obtain ⟨d, hd⟩ : ∃ d, e.end_date = some d :=
      Option.isSome_iff_exists.mp
        (hall e (List.mem_cons_of_mem _ (List.mem_cons_self _ _)))
    obtain ⟨hx_le, hrest⟩ := List.pairwise_cons.mp hsorted
    have hsx : x.start_date ≤ e.start_date := hx_le e (List.mem_cons_self _ _)
    have hallES : ∀ s ∈ es, s.end_date.isSome = true := fun s hs =>
      hall s (List.mem_cons_of_mem _ (List.mem_cons_of_mem _ hs))
    have hpairES : es.Pairwise (fun a b => a.start_date ≤ b.start_date) :=
      (List.pairwise_cons.mp hrest).2
    simp only [resolveOverlaps]
    split
    · rw [hd, hxe]
      dsimp only
      by_cases hlt : xe < d
      · rw [if_pos hlt]
        have hall' : ∀ s ∈ ({ x with end_date := some d } :: es),
            s.end_date.isSome = true := by
          intro s hs
          rcases List.mem_cons.mp hs with rfl | hs
          · rfl
          · exact hallES s hs
        have hsorted' : ({ x with end_date := some d } :: es).Pairwise
            (fun a b => a.start_date ≤ b.start_date) :=
          List.pairwise_cons.mpr
            ⟨fun z hz => hx_le z (List.mem_cons_of_mem _ hz), hpairES⟩
        intro n hn
        apply ih { x with end_date := some d } hall' hsorted'
        rw [mem_coveredSet] at hn ⊢
        obtain ⟨s, hs, hns⟩ := hn
        rcases List.mem_cons.mp hs with rfl | hs
        · refine ⟨{ s with end_date := some d }, List.mem_cons_self _ _, ?_⟩
          have h1 : coveredDays today s = Finset.Icc s.start_date xe := by
            simp [coveredDays, hxe]
          have h2 : coveredDays today { s with end_date := some d } =
              Finset.Icc s.start_date d := by simp [coveredDays]
          rw [h1] at hns
          rw [h2]
          exact Finset.Icc_subset_Icc le_rfl (le_of_lt hlt) hns
        rcases List.mem_cons.mp hs with rfl | hs
        · refine ⟨{ x with end_date := some d }, List.mem_cons_self _ _, ?_⟩
          have h1 : coveredDays today s = Finset.Icc s.start_date d := by
            simp [coveredDays, hd]
          have h2 : coveredDays today { x with end_date := some d } =
              Finset.Icc x.start_date d := by simp [coveredDays]
          rw [h1] at hns
          rw [h2]
          exact Finset.Icc_subset_Icc hsx le_rfl hns
        · exact ⟨s, List.mem_cons_of_mem _ hs, hns⟩
      · rw [if_neg hlt]
        have hall' : ∀ s ∈ x :: es, s.end_date.isSome = true := by
          intro s hs
          rcases List.mem_cons.mp hs with rfl | hs
          · exact hall s (List.mem_cons_self _ _)
          · exact hallES s hs
        have hsorted' : (x :: es).Pairwise
            (fun a b => a.start_date ≤ b.start_date) :=
          List.pairwise_cons.mpr
            ⟨fun z hz => hx_le z (List.mem_cons_of_mem _ hz), hpairES⟩
        intro n hn
        apply ih x hall' hsorted'
        rw [mem_coveredSet] at hn ⊢
        obtain ⟨s, hs, hns⟩ := hn
        rcases List.mem_cons.mp hs with rfl | hs
        · exact ⟨s, List.mem_cons_self _ _, hns⟩
        rcases List.mem_cons.mp hs with rfl | hs
        · refine ⟨x, List.mem_cons_self _ _, ?_⟩
          have h1 : coveredDays today s = Finset.Icc s.start_date d := by
            simp [coveredDays, hd]
          have h2 : coveredDays today x = Finset.Icc x.start_date xe := by
            simp [coveredDays, hxe]
          rw [h1] at hns
          rw [h2]
          exact Finset.Icc_subset_Icc hsx (not_lt.mp hlt) hns
        · exact ⟨s, List.mem_cons_of_mem _ hs, hns⟩
    · intro n hn
      have hsub := ih e (fun s hs => hall s (List.mem_cons_of_mem _ hs)) hrest
      have hn' : n ∈ coveredDays today x ∪ coveredSet today (e :: es) := hn
      rcases Finset.mem_union.mp hn' with h | h
      · exact Finset.mem_union_left _ h
      · exact Finset.mem_union_right _ (hsub h)

theorem resolveOverlaps_wf (today : Nat) (xs : List EnrollmentSpan) :
    ∀ x : EnrollmentSpan,
    (∀ s ∈ x :: xs, endOk s = true) →
    (x :: xs).Pairwise (fun a b => a.start_date ≤ b.start_date) →
    ∀ s ∈ resolveOverlaps today x xs, endOk s = true := by
  induction xs with
  | nil =>
    intro x hall _ s hs
    have : s = x := by simpa [resolveOverlaps] using hs
    exact this ▸ hall x (List.mem_cons_self _ _)
  | cons e es ih =>
    intro x hall hsorted
    obtain ⟨hx_le, hrest⟩ := List.pairwise_cons.mp hsorted
    have hsx : x.start_date ≤ e.start_date := hx_le e (List.mem_cons_self _ _)
    have hex : endOk e = true :=
      hall e (List.mem_cons_of_mem _ (List.mem_cons_self _ _))
    have hallES : ∀ s ∈ es, endOk s = true := fun s hs =>
      hall s (List.mem_cons_of_mem _ (List.mem_cons_of_mem _ hs))
    have hpairES : es.Pairwise (fun a b => a.start_date ≤ b.start_date) :=
      (List.pairwise_cons.mp hrest).2
    have hsorted' : ∀ y : EnrollmentSpan, y.start_date = x.start_date →
        (y :: es).Pairwise (fun a b => a.start_date ≤ b.start_date) := by
      intro y hy
      refine List.pairwise_cons.mpr ⟨?_, hpairES⟩
      intro z hz
      rw [hy]
      exact hx_le z (List.mem_cons_of_mem _ hz)
    simp only [resolveOverlaps]
    split
    · cases hd : e.end_date with
      | none =>
        exact ih x (fun s hs => List.mem_cons.mp hs |>.elim
            (fun h => h ▸ hall x (List.mem_cons_self _ _)) (hallES s))
          (hsorted' x rfl)
      | some d =>
        have hsd : e.start_date ≤ d := by
          have := hex
          unfold endOk at this
          rw [hd] at this
          exact of_decide_eq_true this
        have hxd : x.start_date ≤ d := le_trans hsx hsd
        have hok : endOk { x with end_date := some d } = true := by
          simp [endOk, hxd]
        cases hxe : x.end_date with
        | none =>
          exact ih { x with end_date := some d }
            (fun s hs => List.mem_cons.mp hs |>.elim (fun h => h ▸ hok)
              (hallES s))
            (hsorted' _ rfl)
        | some ld =>
          dsimp only
          by_cases hlt : ld < d
          · rw [if_pos hlt]
            exact ih { x with end_date := some d }
              (fun s hs => List.mem_cons.mp hs |>.elim (fun h => h ▸ hok)
                (hallES s))
              (hsorted' _ rfl)
          · rw [if_neg hlt]
            exact ih x (fun s hs => List.mem_cons.mp hs |>.elim
                (fun h => h ▸ hall x (List.mem_cons_self _ _)) (hallES s))
              (hsorted' x rfl)
    · intro s hs
      rcases List.mem_cons.mp hs with rfl | hs
      · exact hall s (List.mem_cons_self _ _)
      · exact ih e (fun t ht => hall t (List.mem_cons_of_mem _ ht)) hrest s hs

/-- Ongoing same-school span merged with an earlier-ending overlap. -/
def spanA : EnrollmentSpan :=
  { id := "e1", student_id := "s", school_id := "A", start_date := 0 }

/-- Overlapping same-school span with a concrete earlier end date. -/
def spanB : EnrollmentSpan :=
  { id := "e2", student_id := "s", school_id := "A", start_date := 1,
    end_date := some 5 }

/-- Counterexample to C1: with an ongoing span (end date `None`, covering
through today = day 10) and an overlapping same-school span ending day 5,
`normalize_enrollments` overwrites the missing end date with day 5, so the
total number of covered days drops from 11 to 6. -/
theorem C1_normalize_counterexample :
    (coveredSet 10 (normalize_enrollments 10 [spanA, spanB])).card <
      (coveredSet 10 [spanA, spanB]).card := by decide

/-- C1 amended: when every span has an explicit end date,
`normalize_enrollments` never decreases the set (hence the number) of
covered days; and whenever no input span's end date precedes its start date,
no output span's end date precedes its start date (this half holds with
ongoing spans as well).  With an ongoing span the destructive merge can
replace the missing end date by the other span's earlier end date and shrink
the covered days, as the counterexample shows. -/
theorem C1_normalize_amended (today : Nat) (spans : List EnrollmentSpan) :
    ((∀ s ∈ spans, s.end_date.isSome = true) →
      coveredSet today spans ⊆
        coveredSet today (normalize_enrollments today spans) ∧
      (coveredSet today spans).card ≤
        (coveredSet today (normalize_enrollments today spans)).card) ∧
    ((∀ s ∈ spans, endOk s = true) →
      ∀ s ∈ normalize_enrollments today spans, endOk s = true) := by
  constructor
  · intro hall
    have hsub : coveredSet today spans ⊆
        coveredSet today (normalize_enrollments today spans) := by
      unfold normalize_enrollments
      cases hs : sortByStart spans with
      | nil =>
        intro n hn
        rw [mem_coveredSet] at hn
        obtain ⟨s, hsm, _⟩ := hn
        have hmem := (mem_sortByStart s spans).mpr hsm
        rw [hs] at hmem
        simp at hmem
      | cons x xs =>
        have hall' : ∀ s ∈ x :: xs, s.end_date.isSome = true := by
          intro s hsm
          rw [← hs] at hsm
          exact hall s ((mem_sortByStart s spans).mp hsm)
        have hsorted' := sorted_sortByStart spans
        rw [hs] at hsorted'
        intro n hn
        apply resolveOverlaps_covered today xs x hall' hsorted'
        rw [mem_coveredSet] at hn ⊢
        obtain ⟨s, hsm, hns⟩ := hn
        refine ⟨s, ?_, hns⟩
        have hmem := (mem_sortByStart s spans).mpr hsm
        rw [hs] at hmem
        exact hmem
    exact ⟨hsub, Finset.card_le_card hsub⟩
  · intro hall
    unfold normalize_enrollments
    cases hs : sortByStart spans with
    | nil =>
      intro s hsm
      simp at hsm
    | cons x xs =>
      have hall' : ∀ s ∈ x :: xs, endOk s = true := by
        intro s hsm
        rw [← hs] at hsm
        exact hall s ((mem_sortByStart s spans).mp hsm)
      have hsorted' := sorted_sortByStart spans
      rw [hs] at hsorted'
      exact resolveOverlaps_wf today xs x hall' hsorted'

/-- Closed same-school span for the C1 witness. -/
def spanC : EnrollmentSpan :=
  { id := "e3", student_id := "s", school_id := "A", start_date := 0,
    end_date := some 3 }

/-- Second closed same-school span for the C1 witness, overlapping the
first. -/
def spanD : EnrollmentSpan :=
  { id := "e4", student_id := "s", school_id := "A", start_date := 2,
    end_date := some 5 }

/-- Witness for the amended C1 on two concrete closed spans. -/
theorem C1_normalize_amended_witness :
    (coveredSet 7 [spanC, spanD]).card ≤
      (coveredSet 7 (normalize_enrollments 7 [spanC, spanD])).card :=
  ((C1_normalize_amended 7 [spanC, spanD]).1 (by decide)).2

end Enrollment
